import Mathlib

/-!
Verification development for the crawler job subsystem of the
Website-RAG-QA-Assistant repository.

The Python sources under `src/crawler` (robots_parser.py, sitemap_crawler.py,
html_extractor.py, crawler_manager.py) are shallowly embedded as executable
Lean definitions.  I/O-bearing operations (HTTP fetches, the XML parsing
library, the filesystem) are modelled by explicit environment parameters:
a fetch function, a parsed-XML tree, an extraction-outcome function.  All
pure control flow and state mutation is translated line by line from the
source.  String primitives (`strip`, `lower`, `split`, `startswith`) are
implemented over `List Char` so that every definition evaluates by kernel
reduction.
-/

/-! ## Python dict (string-keyed, insertion-ordered) -/

/-- Lookup in an insertion-ordered association list, modelling `d[k]` /
`d.get(k)` on a Python dict whose keys are unique. -/
def dget {α : Type} : List (String × α) → String → Option α
  | [], _ => none
  | (k, v) :: rest, key => if k = key then some v else dget rest key

/-- Models `d[k] = v` on a Python dict: overwrite in place if the key exists,
else append, preserving insertion order. -/
def dset {α : Type} : List (String × α) → String → α → List (String × α)
  | [], key, v => [(key, v)]
  | (k, w) :: rest, key, v =>
    if k = key then (k, v) :: rest else (k, w) :: dset rest key v

/-- Models `k in d` on a Python dict. -/
def dmem {α : Type} (d : List (String × α)) (k : String) : Bool :=
  (dget d k).isSome

/-- Boolean list membership for strings, modelling `x in s` on a Python
set or list of strings. -/
def memb (x : String) : List String → Bool
  | [] => false
  | y :: rest => if y = x then true else memb x rest

theorem memb_iff (x : String) (l : List String) : memb x l = true ↔ x ∈ l := by
  induction l with
  | nil => simp [memb]
  | cons y rest ih =>
    by_cases h : y = x
    · simp [memb, h]
    · rw [memb, if_neg h, ih]
      constructor
      · exact fun hx => List.mem_cons_of_mem _ hx
      · intro hx
        rcases List.mem_cons.mp hx with h1 | h2
        · exact absurd h1.symm h
        · exact h2

/-! ## Character-list string primitives -/

/-- ASCII whitespace stripped by Python `str.strip()`. -/
def isPySpace (c : Char) : Bool :=
  c == ' ' || c == '\t' || c == '\n' || c == '\r' || c == '\x0b' || c == '\x0c'

/-- Models `str.strip()`. -/
def trimCL (cs : List Char) : List Char :=
  ((cs.dropWhile isPySpace).reverse.dropWhile isPySpace).reverse

/-- Models `str.strip()` on strings. -/
def sTrim (s : String) : String := String.mk (trimCL s.toList)

/-- Models `str.lower()` (ASCII). -/
def sToLower (s : String) : String := String.mk (s.toList.map Char.toLower)

/-- Models `str.split(sep)` for a one-character separator; always returns at
least one piece. -/
def splitChar (sep : Char) : List Char → List (List Char)
  | [] => [[]]
  | c :: cs =>
    let r := splitChar sep cs
    if c = sep then [] :: r
    else
      match r with
      | [] => [[c]]
      | h :: t => (c :: h) :: t

/-- Models `sep.join(pieces)` for a one-character separator. -/
def joinChar (sep : Char) : List (List Char) → List Char
  | [] => []
  | [x] => x
  | x :: xs => x ++ sep :: joinChar sep xs

/-- The part of `cs` before the first occurrence of `sep` (all of `cs`
when absent). -/
def beforeChar (sep : Char) (cs : List Char) : List Char :=
  (splitChar sep cs).headD cs

/-- Models `str.startswith(pre)`. -/
def startsWithCL : List Char → List Char → Bool
  | _, [] => true
  | [], _ :: _ => false
  | c :: cs, p :: ps => if c = p then startsWithCL cs ps else false

/-- Models `str.startswith(pre)` on strings. -/
def sStartsWith (s pre : String) : Bool := startsWithCL s.toList pre.toList

/-- Match `sub` against a pre fix of the list, returning the remainder. -/
def matchesAt : List Char → List Char → Option (List Char)
  | [], rest => some rest
  | _ :: _, [] => none
  | p :: ps, c :: cs => if c = p then matchesAt ps cs else none

/-- Split at the first occurrence of the substring `sub`, returning the
parts before and after it. -/
def splitFirstSub (sub : List Char) : List Char → Option (List Char × List Char)
  | [] => (matchesAt sub []).map (fun rest => (([] : List Char), rest))
  | c :: cs =>
    match matchesAt sub (c :: cs) with
    | some rest => some ([], rest)
    | none =>
      match splitFirstSub sub cs with
      | some (pre, post) => some (c :: pre, post)
      | none => none

/-! ## Python `float()` on plain decimal literals

`robots_parser.py` line 72 and `sitemap_crawler.py` line 179 call
`float(value)` inside `try/except ValueError`.  The values appearing in
robots.txt `Crawl-delay:` directives and sitemap `<priority>` elements are
plain decimal literals, which we model exactly (optional sign, digits,
optional fractional part); other inputs yield `none`, modelling the
swallowed `ValueError`.  A parsed float is stored as a decimal
mantissa/scale pair (no arithmetic is ever performed on these values in
the source). -/

/-- A Python float literal `mant / 10^fracDigits`; `⟨2, 0⟩` is `2.0`,
`⟨25, 1⟩` is `2.5`. -/
structure PyFloat where
  mant : Int
  fracDigits : Nat
deriving DecidableEq

/-- The rational value of a parsed float. -/
def PyFloat.toRat (x : PyFloat) : Rat := (x.mant : Rat) / ((10 : Rat) ^ x.fracDigits)

/-- Fold a run of decimal digits into a number; `none` if any character is
not a digit. -/
def digitsVal (cs : List Char) : Option Nat :=
  cs.foldl
    (fun acc c =>
      match acc with
      | none => none
      | some n => if c.isDigit then some (n * 10 + (c.toNat - 48)) else none)
    (some 0)

/-- Python `float(s)` restricted to plain decimal literals. -/
def parseFloat (s : String) : Option PyFloat :=
  let t := trimCL s.toList
  let (neg, body) :=
    match t with
    | '-' :: rest => (true, rest)
    | '+' :: rest => (false, rest)
    | _ => (false, t)
  let signed : Int → Int := fun n => if neg then -n else n
  match splitChar '.' body with
  | [i] =>
    if i = [] then none
    else (digitsVal i).map (fun n => PyFloat.mk (signed n) 0)
  | [i, f] =>
    if i = [] ∧ f = [] then none
    else
      match digitsVal i, digitsVal f with
      | some iv, some fv =>
        some (PyFloat.mk (signed (iv * 10 ^ f.length + fv)) f.length)
      | _, _ => none
  | _ => none

/-! ## Robots compliance checker (`src/crawler/robots/robots_parser.py`) -/

/-- A value stored in the heterogeneous `rules` dict of
`RobotsParser.parse_robots_txt`: agent keys map to lists of disallowed path
prefix strings, `"<agent>_crawl_delay"` keys map to floats. -/
inductive RuleVal where
  | disallows (ps : List String)
  | delay (d : PyFloat)
deriving DecidableEq

abbrev Rules := List (String × RuleVal)

/-- Models `line[:line.index("#")]` when the line contains `#`, else the line. -/
def stripComment (line : String) : String :=
  String.mk (beforeChar '#' line.toList)

/-- One iteration of the line loop in `parse_robots_txt` (lines 42-74 of
robots_parser.py).  State is the rules dict plus `current_agent`. -/
def parseRobotsLine (st : Rules × Option String) (rawLine : String) :
    Rules × Option String :=
  let line := sTrim (stripComment rawLine)
  if line = "" then st
  else
    match splitChar ':' line.toList with
    | [] => st
    | [_] => st
    | d :: rest =>
      let directive := sToLower (sTrim (String.mk d))
      let value := sTrim (String.mk (joinChar ':' rest))
      let (rules, current) := st
      if directive = "user-agent" then
        let ag := sToLower value
        let rules := if dmem rules ag then rules else dset rules ag (.disallows [])
        (rules, some ag)
      else if directive = "disallow" then
        match current with
        | none => st
        | some ag =>
          if value = "" then st
          else
            match dget rules ag with
            | some (.disallows ps) => (dset rules ag (.disallows (ps ++ [value])), current)
            | _ => st
      else if directive = "crawl-delay" then
        match current with
        | none => st
        | some ag =>
          match parseFloat value with
          | some dl => (dset rules (ag ++ "_crawl_delay") (.delay dl), current)
          | none => st
      else st

/-- Models `RobotsParser.parse_robots_txt`.  The argument is the fetched
robots.txt body, `none` when the fetch failed (`fetch_robots_txt` returned
`None`); `if not robots_content` also catches the empty string. -/
def parse_robots_txt (content : Option String) : Rules :=
  match content with
  | none => [("*", .disallows [])]
  | some c =>
    if c = "" then [("*", .disallows [])]
    else
      let lines := (splitChar '\n' c.toList).map String.mk
      let (rules, _) := lines.foldl parseRobotsLine ([], none)
      if rules = [] then [("*", .disallows [])] else rules

/-- Models `RobotsParser.get_crawl_delay`: specific-agent delay key first, then
the wildcard key, else the 1.0 second default.  Returns the stored value
unchanged (the Python dict is heterogeneous). -/
def get_crawl_delay (ua : String) (rules : Rules) : RuleVal :=
  match dget rules (sToLower ua ++ "_crawl_delay") with
  | some v => v
  | none =>
    match dget rules "*_crawl_delay" with
    | some v => v
    | none => .delay (PyFloat.mk 1 0)

/-! URL splitting, modelling `urllib.parse.urlparse` on ordinary
`scheme://netloc/path` URLs (the only shape this crawler handles). -/

/-- The part of a URL after `scheme://`. -/
def afterScheme (url : String) : List Char :=
  match splitFirstSub "://".toList url.toList with
  | some (_, post) => post
  | none => url.toList

/-- Drop a query string and fragment. -/
def stripQueryFragment (p : List Char) : List Char :=
  beforeChar '#' (beforeChar '?' p)

/-- Models `urlparse(url).netloc`. -/
def urlNetloc (url : String) : String :=
  String.mk (stripQueryFragment ((splitChar '/' (afterScheme url)).headD (afterScheme url)))

/-- Models `urlparse(url).path`. -/
def urlPath (url : String) : String :=
  match splitChar '/' (afterScheme url) with
  | [] => ""
  | [_] => ""
  | _ :: ps => String.mk (stripQueryFragment ('/' :: joinChar '/' ps))

/-- Models `path = parsed_url.path or "/"` (line 104 of robots_parser.py). -/
def pathOrRoot (url : String) : String :=
  if urlPath url = "" then "/" else urlPath url

/-- The disallow group selected by `is_allowed` (lines 118-125): the
exact (lower-cased) user-agent key takes precedence over `"*"`; absence of
both yields the empty group. -/
def select_group (ua : String) (rules : Rules) : List String :=
  match dget rules (sToLower ua) with
  | some (.disallows ps) => ps
  | some (.delay _) => []
  | none =>
    match dget rules "*" with
    | some (.disallows ps) => ps
    | some (.delay _) => []
    | none => []

/-- Models `RobotsParser.is_allowed`, with the fetch-and-cache step abstracted:
`robots` is the robots.txt body cached for the URL's domain (`none` when
the fetch failed).  Returns `(allowed, crawl_delay)`. -/
def is_allowed (ua : String) (robots : Option String) (url : String) :
    Bool × RuleVal :=
  let path := pathOrRoot url
  let rules := parse_robots_txt robots
  let crawl_delay := get_crawl_delay ua rules
  let group := select_group ua rules
  (! group.any (fun r => sStartsWith path r), crawl_delay)

/-! ## `RobotsParser.get_allowed_urls` (lines 135-141)

`get_allowed_urls` is a synchronous method that evaluates
`self.is_allowed(url)[0]`.  `is_allowed` is an `async def`, so the bare
call returns a coroutine object and the subscript raises
`TypeError: 'coroutine' object is not subscriptable`.  We embed just
enough of Python's dynamic semantics to capture this. -/

inductive PyError where
  | keyError
  | typeError
deriving DecidableEq

/-- Runtime value produced by a bare (un-awaited) call of an `async def`
function: always a coroutine object. -/
inductive PyVal where
  | coroutine
deriving DecidableEq

/-- Calling `self.is_allowed(url)` without `await` yields a coroutine. -/
def is_allowed_bare_call (_url : String) : PyVal :=
  .coroutine

/-- Subscripting `v[i]`: coroutine objects are not subscriptable. -/
def pySubscript (v : PyVal) (_i : Nat) : Except PyError PyVal :=
  match v with
  | .coroutine => .error .typeError

/-- Models `RobotsParser.get_allowed_urls`: the loop body evaluates
`self.is_allowed(url)[0]`, which raises on the first iteration. -/
def get_allowed_urls (urls : List String) : Except PyError (List String) :=
  match urls with
  | [] => .ok []
  | url :: rest =>
    match pySubscript (is_allowed_bare_call url) 0 with
    | .error e => .error e
    | .ok _ =>
      match get_allowed_urls rest with
      | .error e => .error e
      | .ok acc => .ok (url :: acc)

/-! ## Claims C7 and C10 -/

/-- Claim C7: For the robots.txt body
`User-agent: *` / `Disallow: /private/` / `Crawl-delay: 2`, `is_allowed`
returns `(False, 2.0)` for `https://x.test/private/page` and `(True, 2.0)`
for `https://x.test/public`.  In general a URL is disallowed iff its path
starts with some disallow-prefix of the selected group, where the group
for the crawler's exact (lower-cased) user-agent token takes precedence
over the wildcard `*` group, and absence of both groups means fully
allowed.  (`PyFloat.mk 2 0` denotes the float `2.0`.) -/
theorem c7_robots_is_allowed :
    is_allowed "RAGCrawler" (some "User-agent: *\nDisallow: /private/\nCrawl-delay: 2")
        "https://x.test/private/page" = (false, .delay (PyFloat.mk 2 0)) ∧
    is_allowed "RAGCrawler" (some "User-agent: *\nDisallow: /private/\nCrawl-delay: 2")
        "https://x.test/public" = (true, .delay (PyFloat.mk 2 0)) ∧
    (∀ ua robots url,
      (is_allowed ua robots url).fst = false ↔
        ∃ r ∈ select_group ua (parse_robots_txt robots),
          sStartsWith (pathOrRoot url) r = true) ∧
    (∀ ua robots url,
      dget (parse_robots_txt robots) (sToLower ua) = none →
      dget (parse_robots_txt robots) "*" = none →
      (is_allowed ua robots url).fst = true) ∧
    (PyFloat.mk 2 0).toRat = 2 := by
  refine ⟨by decide, by decide, ?_, ?_, by norm_num [PyFloat.toRat]⟩
  · intro ua robots url
    simp [is_allowed, List.any_eq_true]
  · intro ua robots url h1 h2
    simp [is_allowed, select_group, h1, h2]

/-- Witness for C7: a robots.txt with neither a group for this crawler's
user-agent token nor a wildcard group leaves every URL fully allowed. -/
theorem c7_robots_is_allowed_witness :
    (is_allowed "RAGCrawler" (some "User-agent: foo\nDisallow: /x")
      "https://y.test/a").fst = true :=
  c7_robots_is_allowed.2.2.2.1 "RAGCrawler" (some "User-agent: foo\nDisallow: /x")
    "https://y.test/a" (by decide) (by decide)

/-- Claim C10: `RobotsParser.get_allowed_urls` subscripts the coroutine
object returned by the bare call of the async `is_allowed`, so for every
non-empty URL list it raises `TypeError`; only for the empty list does it
return the (empty) filtered list. -/
theorem c10_get_allowed_urls_type_error :
    (∀ urls : List String, urls ≠ [] →
      get_allowed_urls urls = .error .typeError) ∧
    get_allowed_urls [] = .ok [] := by
  constructor
  · intro urls h
    match urls with
    | [] => exact absurd rfl h
    | u :: rest => rfl
  · rfl

/-- Witness for C10: a concrete two-element URL list raises `TypeError`. -/
theorem c10_get_allowed_urls_type_error_witness :
    get_allowed_urls ["https://x.test/a", "https://x.test/b"] = .error .typeError :=
  c10_get_allowed_urls_type_error.1 ["https://x.test/a", "https://x.test/b"] (by decide)

/-! ## Crawl job manager (`src/crawler/manager/crawler_manager.py`)

Timestamps (`datetime.now()`) are modelled as `Nat` values passed in by
the caller; `website_id` is an `Int` as in the database schema. -/

/-- The `CrawlerJob` object (crawler_manager.py lines 19-34). -/
structure CrawlerJob where
  id : String
  website_id : Int
  website_url : String
  sitemap_url : Option String
  status : String
  start_time : Option Nat
  end_time : Option Nat
  total_urls : Nat
  processed_urls : Nat
  successful_urls : Nat
  failed_urls : Nat
  errors : List String
deriving DecidableEq

/-- A freshly constructed `CrawlerJob(website_id, website_url, sitemap_url)`
with the generated opaque id. -/
def CrawlerJob.new (jid : String) (wid : Int) (url : String)
    (smap : Option String) : CrawlerJob :=
  { id := jid, website_id := wid, website_url := url, sitemap_url := smap,
    status := "pending", start_time := none, end_time := none,
    total_urls := 0, processed_urls := 0, successful_urls := 0,
    failed_urls := 0, errors := [] }

/-- The mutable registries of a `CrawlerManager` instance: the job dict,
the active-job id set (kept duplicate-free), and the concurrency cap. -/
structure ManagerState where
  jobs : List (String × CrawlerJob)
  active_jobs : List String
  max_concurrent_jobs : Nat
deriving DecidableEq

/-- Models `CrawlerManager.__init__`: empty registries, cap 3. -/
def managerInit : ManagerState :=
  { jobs := [], active_jobs := [], max_concurrent_jobs := 3 }

/-- Models `CrawlerManager.create_job`: register a fresh pending job. -/
def create_job (st : ManagerState) (jid : String) (wid : Int) (url : String)
    (smap : Option String) : CrawlerJob × ManagerState :=
  let job := CrawlerJob.new jid wid url smap
  (job, { st with jobs := dset st.jobs job.id job })

/-- Models `self.active_jobs.add(job_id)` on a Python set. -/
def activeAdd (l : List String) (x : String) : List String :=
  if memb x l then l else x :: l

/-- Models `self.active_jobs.remove(job_id)` on a Python set: raises `KeyError`
when the element is absent. -/
def activeRemove (l : List String) (x : String) :
    Except PyError (List String) :=
  if memb x l then .ok (l.filter (fun y => y ≠ x)) else .error .keyError

/-- Models `CrawlerManager.start_job` (lines 93-120).  The background pipeline is
launched as a fire-and-forget task, so the state returned here is the
state at the moment `start_job` returns `True` — before any pipeline
effect. -/
def start_job (st : ManagerState) (jobId : String) (now : Nat) :
    Bool × ManagerState :=
  match dget st.jobs jobId with
  | none => (false, st)
  | some job =>
    if job.status = "running" then (false, st)
    else if st.max_concurrent_jobs ≤ st.active_jobs.length then (false, st)
    else
      let job := { job with status := "running", start_time := some now }
      (true, { st with jobs := dset st.jobs jobId job,
                       active_jobs := activeAdd st.active_jobs jobId })

/-- Models `CrawlerManager.stop_job` (lines 122-142).  The status and end-time
mutations happen on the shared job object before
`self.active_jobs.remove(job_id)`, so when the remove raises `KeyError`
the job is left mutated and the exception propagates instead of a
boolean. -/
def stop_job (st : ManagerState) (jobId : String) (now : Nat) :
    Except PyError Bool × ManagerState :=
  match dget st.jobs jobId with
  | none => (.ok false, st)
  | some job =>
    if job.status ≠ "running" then (.ok false, st)
    else
      let job := { job with status := "stopped", end_time := some now }
      let st := { st with jobs := dset st.jobs jobId job }
      match activeRemove st.active_jobs jobId with
      | .ok active => (.ok true, { st with active_jobs := active })
      | .error e => (.error e, st)

/-- Models `CrawlerManager.load_jobs` (lines 278-312) on a fresh manager: every
decoded job record is registered in the job dict; the active set is not
touched (it stays empty), whatever status the record carries. -/
def load_jobs (records : List CrawlerJob) : ManagerState :=
  { managerInit with
    jobs := records.foldl (fun acc j => dset acc j.id j) [] }

/-- Models `CrawlerManager.resume_job` admission (lines 314-340): requires status
in `{failed, stopped}` and a free slot; on success flips the status to
running (without touching `start_time`) and registers the id, then spawns
`_resume_job` in the background. -/
def resume_job (st : ManagerState) (jobId : String) : Bool × ManagerState :=
  match dget st.jobs jobId with
  | none => (false, st)
  | some job =>
    if job.status ≠ "failed" ∧ job.status ≠ "stopped" then (false, st)
    else if st.max_concurrent_jobs ≤ st.active_jobs.length then (false, st)
    else
      let job := { job with status := "running" }
      (true, { st with jobs := dset st.jobs jobId job,
                       active_jobs := activeAdd st.active_jobs jobId })

/-! ## Claims C3 and C4 -/

/-- A job record rehydrated by `load_jobs` after a crash: status
`"running"` on disk, but the fresh manager's active set is empty. -/
def rehydratedRunningJob : CrawlerJob :=
  { id := "job-1", website_id := 1, website_url := "https://a.test",
    sitemap_url := none, status := "running", start_time := some 0,
    end_time := none, total_urls := 5, processed_urls := 2,
    successful_urls := 1, failed_urls := 1, errors := [] }

/-- Claim C3, counterexample: For a job rehydrated by `load_jobs` with
status `"running"` (hence absent from the active set), `stop_job` does
not return a boolean at all: `self.active_jobs.remove(job_id)` raises
`KeyError`, after the status and end-time mutations have already been
applied to the shared job object. -/
theorem c3_stop_job_counterexample :
    (stop_job (load_jobs [rehydratedRunningJob]) "job-1" 7).fst =
      Except.error PyError.keyError ∧
    ((dget (stop_job (load_jobs [rehydratedRunningJob]) "job-1" 7).snd.jobs
        "job-1").map (fun j => (j.status, j.end_time))) =
      some ("stopped", some 7) :=
  ⟨rfl, rfl⟩

/-- Claim C3, amended: `stop_job` returns `False` — changing nothing — when
the job is absent or not `"running"`; for a running job that is in the
active set it returns `True` after setting status `"stopped"`, setting the
end time and removing the id from the active set; but for a running job
absent from the active set (e.g. one rehydrated by `load_jobs`) it
mutates status and end time and then raises `KeyError` instead of
returning. -/
theorem c3_stop_job_amended :
    ∀ (st : ManagerState) (jobId : String) (now : Nat),
    (dget st.jobs jobId = none → stop_job st jobId now = (.ok false, st)) ∧
    (∀ job, dget st.jobs jobId = some job → job.status ≠ "running" →
      stop_job st jobId now = (.ok false, st)) ∧
    (∀ job, dget st.jobs jobId = some job → job.status = "running" →
      memb jobId st.active_jobs = true →
      stop_job st jobId now =
        (.ok true,
         { st with
           jobs := dset st.jobs jobId
             { job with status := "stopped", end_time := some now },
           active_jobs := st.active_jobs.filter (fun y => y ≠ jobId) })) ∧
    (∀ job, dget st.jobs jobId = some job → job.status = "running" →
      memb jobId st.active_jobs = false →
      stop_job st jobId now =
        (.error .keyError,
         { st with
           jobs := dset st.jobs jobId
             { job with status := "stopped", end_time := some now } })) := by
  intro st jobId now
  refine ⟨?_, ?_, ?_, ?_⟩
  · intro h
    simp [stop_job, h]
  · intro job hj hs
    simp [stop_job, hj, hs]
  · intro job hj hs hm
    simp [stop_job, hj, hs, activeRemove, hm]
  · intro job hj hs hm
    simp [stop_job, hj, hs, activeRemove, hm]

/-- Witness for C3 (amended): stopping a running job that is in the
active set returns `True`. -/
theorem c3_stop_job_amended_witness :
    (stop_job
      { jobs := [("job-1", rehydratedRunningJob)], active_jobs := ["job-1"],
        max_concurrent_jobs := 3 } "job-1" 9).fst = .ok true := by
  have h :=
    ((c3_stop_job_amended
      { jobs := [("job-1", rehydratedRunningJob)], active_jobs := ["job-1"],
        max_concurrent_jobs := 3 } "job-1" 9).2.2.1) rehydratedRunningJob
      rfl rfl rfl
  simp [h]

/-- Claim C4: `start_job` returns `False` when the job id is unknown, the
job is already `"running"`, or the active-job count has reached the
configured maximum (3 by default) — leaving the whole state, in
particular the target job's status, `start_time` and counters, unchanged.
Otherwise it returns `True` after setting status `"running"` and
`start_time` and adding the id to the active set; the job's counters in
the returned state are untouched because the pipeline runs as a detached
background task. -/
theorem c4_start_job :
    managerInit.max_concurrent_jobs = 3 ∧
    ∀ (st : ManagerState) (jobId : String) (now : Nat),
    (dget st.jobs jobId = none → start_job st jobId now = (false, st)) ∧
    (∀ job, dget st.jobs jobId = some job → job.status = "running" →
      start_job st jobId now = (false, st)) ∧
    (∀ job, dget st.jobs jobId = some job →
      st.max_concurrent_jobs ≤ st.active_jobs.length →
      start_job st jobId now = (false, st)) ∧
    (∀ job, dget st.jobs jobId = some job → job.status ≠ "running" →
      st.active_jobs.length < st.max_concurrent_jobs →
      start_job st jobId now =
        (true,
         { st with
           jobs := dset st.jobs jobId
             { job with status := "running", start_time := some now },
           active_jobs := activeAdd st.active_jobs jobId }) ∧
      memb jobId (activeAdd st.active_jobs jobId) = true) := by
  refine ⟨rfl, ?_⟩
  intro st jobId now
  refine ⟨?_, ?_, ?_, ?_⟩
  · intro h
    simp [start_job, h]
  · intro job hj hs
    simp [start_job, hj, hs]
  · intro job hj hcap
    by_cases hs : job.status = "running"
    · simp [start_job, hj, hs]
    · simp [start_job, hj, hs, Nat.not_lt.mpr hcap, hcap]
  · intro job hj hs hcap
    constructor
    · simp [start_job, hj, hs, Nat.not_le.mpr hcap, hcap]
    · by_cases hm : memb jobId st.active_jobs = true
      · simp [activeAdd, hm]
      · simp [activeAdd, hm, memb]

/-- Witness for C4: starting a pending job with a free slot succeeds and
registers it as running. -/
theorem c4_start_job_witness :
    (start_job
      { jobs := [("job-2", CrawlerJob.new "job-2" 1 "https://a.test" none)],
        active_jobs := [], max_concurrent_jobs := 3 } "job-2" 4).fst = true := by
  have h :=
    ((c4_start_job.2
      { jobs := [("job-2", CrawlerJob.new "job-2" 1 "https://a.test" none)],
        active_jobs := [], max_concurrent_jobs := 3 } "job-2" 4).2.2.2)
      (CrawlerJob.new "job-2" 1 "https://a.test" none) rfl (by decide) (by decide)
  simp [h.1]

/-! ## Extraction results and content persistence

`EnhancedHTMLContentExtractor.extract_from_url` (html_extractor.py lines
225-248) returns, per URL, either `{"url": url, "error": ...}` on fetch
failure or the result dict
`{"url": url, "title": ..., "metadata": ..., "text": cleaned_text,
"structured_content": ..., "raw_html": ...}`.  Note that the cleaned body
text is stored under the key `"text"`; there is no `"content"` key. -/

/-- A successful extraction result (the string-valued fields used by the
manager); `text` holds the cleaned body text. -/
structure CrawledDoc where
  url : String
  title : String
  text : String
deriving DecidableEq

/-- Models `result.get(key)` on the success dict of `extract_from_url`: the
string-valued keys are `"url"`, `"title"` and `"text"`; any other key —
in particular `"content"` — is absent and yields `None`. -/
def docGet (d : CrawledDoc) (key : String) : Option String :=
  if key = "url" then some d.url
  else if key = "title" then some d.title
  else if key = "text" then some d.text
  else none

/-- Outcome of `extract_from_url` for one URL: a dict with an `"error"`
key, or the success dict. -/
inductive ExtractResult where
  | failure (msg : String)
  | success (title text : String)
deriving DecidableEq

/-- A row of the external `Page` repository. -/
structure Page where
  id : Nat
  url : String
  title : Option String
  content : Option String
  website_id : Int
  last_crawled_at : Option Nat
  is_indexed : Bool
deriving DecidableEq

/-- The external Page repository (`app/repositories/page.py`), with its
id sequence. -/
structure PageRepo where
  pages : List Page
  next_id : Nat
deriving DecidableEq

/-- Models `PageRepository.get_by_url`. -/
def get_by_url (repo : PageRepo) (url : String) : Option Page :=
  repo.pages.find? (fun p => p.url = url)

/-- Models `page_repo.update(page.id, {title, content, last_crawled_at})`. -/
def page_update (repo : PageRepo) (pid : Nat) (title content : Option String)
    (now : Nat) : PageRepo :=
  { repo with
    pages := repo.pages.map (fun p =>
      if p.id = pid then
        { p with title := title, content := content, last_crawled_at := some now }
      else p) }

/-- Models `page_repo.create({url, title, content, website_id, last_crawled_at,
is_indexed: False})`. -/
def page_create (repo : PageRepo) (url : String) (title content : Option String)
    (wid : Int) (now : Nat) : PageRepo :=
  { pages := repo.pages ++
      [{ id := repo.next_id, url := url, title := title, content := content,
         website_id := wid, last_crawled_at := some now, is_indexed := false }],
    next_id := repo.next_id + 1 }

/-- The per-website content directory: one JSON record per URL.  Within a
process `hash(url)` is deterministic, so writing the same URL again
replaces the record. -/
def store_put (store : List CrawledDoc) (d : CrawledDoc) : List CrawledDoc :=
  if store.any (fun e => e.url = d.url) then
    store.map (fun e => if e.url = d.url then d else e)
  else store ++ [d]

/-- The set of URLs with a persisted content record — what `_resume_job`
computes by scanning the content directory and reading each record's
`"url"` field. -/
def stored_urls (store : List CrawledDoc) : List String :=
  store.map (fun d => d.url)

/-- Models `CrawlerManager._save_content` (crawler_manager.py lines 221-276):
write the document to the content directory, then upsert the Page row —
`create` if `get_by_url` finds nothing, else `update` of the found row.
The title and content fields are read with `content.get("title")` and
`content.get("content")` from the result dict. -/
def save_content (wid : Int) (store : List CrawledDoc) (repo : PageRepo)
    (d : CrawledDoc) (now : Nat) : List CrawledDoc × PageRepo :=
  let store := store_put store d
  let repo :=
    match get_by_url repo d.url with
    | some p => page_update repo p.id (docGet d "title") (docGet d "content") now
    | none => page_create repo d.url (docGet d "title") (docGet d "content") wid now
  (store, repo)

/-! ## The background pipeline (`_run_job` / `_resume_job`)

The pipeline's environment is abstracted as: the discovered URL list
(`crawler.crawl()` output), an extraction-outcome function
(`extract_from_urls`), and a stop oracle `stopAt` — `stopAt i = true`
models an external `stop_job` having flipped the shared job object's
status to `"stopped"` before the i-th per-URL checkpoint (cooperative
cancellation).  `checkpoints` is the ghost trace of every
`_save_job_metadata` call; `attempted` is the ghost list of URLs whose
result was consumed by the loop. -/

structure PipeState where
  job : CrawlerJob
  store : List CrawledDoc
  repo : PageRepo
  checkpoints : List CrawlerJob
  attempted : List String
deriving DecidableEq

/-- The failure branch of the per-result loop (lines 178-181, 187):
`failed_urls += 1`, error appended, `processed_urls += 1`. -/
def record_failure (job : CrawlerJob) (url msg : String) : CrawlerJob :=
  { job with
    failed_urls := job.failed_urls + 1,
    errors := job.errors ++ ["Failed to extract content from " ++ url ++ ": " ++ msg],
    processed_urls := job.processed_urls + 1 }

/-- The success branch (lines 183-185, 187): content saved,
`successful_urls += 1`, `processed_urls += 1`. -/
def record_success (job : CrawlerJob) : CrawlerJob :=
  { job with
    successful_urls := job.successful_urls + 1,
    processed_urls := job.processed_urls + 1 }

/-- The shared job object as observed at a per-URL checkpoint: an
external `stop_job` (modelled by the stop oracle) may have set the status
to `"stopped"` and the end time. -/
def observe_stop (stop : Bool) (now : Nat) (job : CrawlerJob) : CrawlerJob :=
  if stop then { job with status := "stopped", end_time := some now } else job

/-- The per-URL loop shared by `_run_job` (lines 164-190) and
`_resume_job` (lines 380-406): observe a possible external stop, halt if
the status is no longer `"running"`, otherwise consume the URL's
extraction result, update the counters and checkpoint. -/
def run_loop (extract : String → ExtractResult) (stopAt : Nat → Bool)
    (wid : Int) (now : Nat) :
    List String → Nat → PipeState → PipeState
  | [], _, ps => ps
  | url :: rest, i, ps =>
    let job := observe_stop (stopAt i) now ps.job
    if job.status ≠ "running" then { ps with job := job }
    else
      match extract url with
      | .failure msg =>
        let job := record_failure job url msg
        run_loop extract stopAt wid now rest (i + 1)
          { ps with job := job, checkpoints := ps.checkpoints ++ [job],
                    attempted := ps.attempted ++ [url] }
      | .success title text =>
        let d : CrawledDoc := { url := url, title := title, text := text }
        let sr := save_content wid ps.store ps.repo d now
        let job := record_success job
        run_loop extract stopAt wid now rest (i + 1)
          { job := job, store := sr.fst, repo := sr.snd,
            checkpoints := ps.checkpoints ++ [job],
            attempted := ps.attempted ++ [url] }

/-- Conclusion of both pipelines (lines 192-198 / 413-419): a still-running
job is marked completed; the final state is checkpointed in the `finally`
block. -/
def finish_run (now : Nat) (ps : PipeState) : PipeState :=
  let job :=
    if ps.job.status = "running" then
      { ps.job with status := "completed", end_time := some now }
    else ps.job
  { ps with job := job, checkpoints := ps.checkpoints ++ [job] }

/-- Models `CrawlerManager._run_job` (lines 144-210) on the discovered URL list:
assign `total_urls`, checkpoint, run the batch loop, conclude. -/
def run_job (extract : String → ExtractResult) (stopAt : Nat → Bool)
    (wid : Int) (now : Nat) (urls : List String) (ps0 : PipeState) : PipeState :=
  let job := { ps0.job with total_urls := urls.length }
  let ps := { ps0 with job := job, checkpoints := ps0.checkpoints ++ [job] }
  finish_run now (run_loop extract stopAt wid now urls 0 ps)

/-- Models `CrawlerManager._resume_job` (lines 342-431): when URL data exists
(`total_urls > 0`), scan the content directory for already-persisted
URLs, re-run discovery, keep only the complement, recompute `total_urls`
as `processed_urls + remaining`, checkpoint, and run the same loop;
otherwise fall back to `_run_job`. -/
def resume_run (extract : String → ExtractResult) (stopAt : Nat → Bool)
    (wid : Int) (now : Nat) (discovered : List String) (ps0 : PipeState) :
    PipeState :=
  if 0 < ps0.job.total_urls then
    let processedUrls := stored_urls ps0.store
    let urls := discovered.filter (fun u => ! memb u processedUrls)
    let job := { ps0.job with total_urls := ps0.job.processed_urls + urls.length }
    let ps := { ps0 with job := job, checkpoints := ps0.checkpoints ++ [job] }
    finish_run now (run_loop extract stopAt wid now urls 0 ps)
  else
    run_job extract stopAt wid now discovered ps0

/-! Counter-shape lemmas for the pipeline. -/

theorem observe_stop_counts (b : Bool) (now : Nat) (j : CrawlerJob) :
    (observe_stop b now j).processed_urls = j.processed_urls ∧
    (observe_stop b now j).successful_urls = j.successful_urls ∧
    (observe_stop b now j).failed_urls = j.failed_urls ∧
    (observe_stop b now j).total_urls = j.total_urls := by
  cases b <;> simp [observe_stop]

theorem record_failure_counts (j : CrawlerJob) (url msg : String) :
    (record_failure j url msg).processed_urls = j.processed_urls + 1 ∧
    (record_failure j url msg).successful_urls = j.successful_urls ∧
    (record_failure j url msg).failed_urls = j.failed_urls + 1 ∧
    (record_failure j url msg).total_urls = j.total_urls := by
  simp [record_failure]

theorem record_success_counts (j : CrawlerJob) :
    (record_success j).processed_urls = j.processed_urls + 1 ∧
    (record_success j).successful_urls = j.successful_urls + 1 ∧
    (record_success j).failed_urls = j.failed_urls ∧
    (record_success j).total_urls = j.total_urls := by
  simp [record_success]

/-- The per-URL counter invariant of claim C1. -/
def countInv (j : CrawlerJob) : Prop :=
  j.processed_urls = j.successful_urls + j.failed_urls

/-- Lemma: `run_loop` preserves `processed = successful + failed` on the final
job and on every checkpoint it appends. -/
theorem run_loop_countInv (extract : String → ExtractResult)
    (stopAt : Nat → Bool) (wid : Int) (now : Nat) :
    ∀ (urls : List String) (i : Nat) (ps : PipeState),
    countInv ps.job →
    (∀ cp ∈ ps.checkpoints, countInv cp) →
    countInv (run_loop extract stopAt wid now urls i ps).job ∧
    (∀ cp ∈ (run_loop extract stopAt wid now urls i ps).checkpoints, countInv cp) := by
  intro urls
  induction urls with
  | nil =>
    intro i ps h hc
    exact ⟨h, hc⟩
  | cons url rest ih =>
    intro i ps h hc
    have hobs := observe_stop_counts (stopAt i) now ps.job
    have hinv1 : countInv (observe_stop (stopAt i) now ps.job) := by
      unfold countInv
      rw [hobs.1, hobs.2.1, hobs.2.2.1]
      exact h
    rw [run_loop]
    by_cases hr : (observe_stop (stopAt i) now ps.job).status ≠ "running"
    · simp only [if_pos hr]
      exact ⟨hinv1, hc⟩
    · simp only [if_neg hr]
      cases hex : extract url with
      | failure msg =>
        have hf := record_failure_counts (observe_stop (stopAt i) now ps.job) url msg
        have hinv2 : countInv (record_failure (observe_stop (stopAt i) now ps.job) url msg) := by
          unfold countInv
          rw [hf.1, hf.2.1, hf.2.2.1]
          unfold countInv at hinv1
          omega
        refine ih (i + 1) _ hinv2 ?_
        intro cp hcp
        rcases List.mem_append.mp hcp with h1 | h2
        · exact hc cp h1
        · rw [List.mem_singleton.mp h2]
          exact hinv2
      | success title text =>
        have hsu := record_success_counts (observe_stop (stopAt i) now ps.job)
        have hinv2 : countInv (record_success (observe_stop (stopAt i) now ps.job)) := by
          unfold countInv
          rw [hsu.1, hsu.2.1, hsu.2.2.1]
          unfold countInv at hinv1
          omega
        refine ih (i + 1) _ hinv2 ?_
        intro cp hcp
        rcases List.mem_append.mp hcp with h1 | h2
        · exact hc cp h1
        · rw [List.mem_singleton.mp h2]
          exact hinv2

/-- Lemma: `run_loop` has a processed-budget: if the entering job still has
`urls.length` URLs of headroom below `total_urls`, then `processed ≤
total` holds for the final job and every appended checkpoint
(`total_urls` is never written inside the loop). -/
theorem run_loop_total (extract : String → ExtractResult)
    (stopAt : Nat → Bool) (wid : Int) (now : Nat) :
    ∀ (urls : List String) (i : Nat) (ps : PipeState),
    ps.job.processed_urls + urls.length ≤ ps.job.total_urls →
    (∀ cp ∈ ps.checkpoints, cp.processed_urls ≤ cp.total_urls) →
    (run_loop extract stopAt wid now urls i ps).job.processed_urls ≤
      (run_loop extract stopAt wid now urls i ps).job.total_urls ∧
    (∀ cp ∈ (run_loop extract stopAt wid now urls i ps).checkpoints,
      cp.processed_urls ≤ cp.total_urls) := by
  intro urls
  induction urls with
  | nil =>
    intro i ps h hc
    exact ⟨by simpa [run_loop] using Nat.le_trans (Nat.le_add_right _ _) h, hc⟩
  | cons url rest ih =>
    intro i ps h hc
    have hobs := observe_stop_counts (stopAt i) now ps.job
    have h1 : (observe_stop (stopAt i) now ps.job).processed_urls + (url :: rest).length ≤
        (observe_stop (stopAt i) now ps.job).total_urls := by
      rw [hobs.1, hobs.2.2.2]
      exact h
    rw [run_loop]
    by_cases hr : (observe_stop (stopAt i) now ps.job).status ≠ "running"
    · simp only [if_pos hr]
      refine ⟨?_, hc⟩
      calc (observe_stop (stopAt i) now ps.job).processed_urls
          ≤ (observe_stop (stopAt i) now ps.job).processed_urls + (url :: rest).length :=
            Nat.le_add_right _ _
        _ ≤ (observe_stop (stopAt i) now ps.job).total_urls := h1
    · simp only [if_neg hr]
      cases hex : extract url with
      | failure msg =>
        have hf := record_failure_counts (observe_stop (stopAt i) now ps.job) url msg
        have h2 : (record_failure (observe_stop (stopAt i) now ps.job) url msg).processed_urls +
            rest.length ≤
            (record_failure (observe_stop (stopAt i) now ps.job) url msg).total_urls := by
          rw [hf.1, hf.2.2.2]
          simp only [List.length_cons] at h1
          omega
        refine ih (i + 1) _ h2 ?_
        intro cp hcp
        rcases List.mem_append.mp hcp with ha | hb
        · exact hc cp ha
        · rw [List.mem_singleton.mp hb]
          exact Nat.le_trans (Nat.le_add_right _ _) h2
      | success title text =>
        have hsu := record_success_counts (observe_stop (stopAt i) now ps.job)
        have h2 : (record_success (observe_stop (stopAt i) now ps.job)).processed_urls +
            rest.length ≤
            (record_success (observe_stop (stopAt i) now ps.job)).total_urls := by
          rw [hsu.1, hsu.2.2.2]
          simp only [List.length_cons] at h1
          omega
        refine ih (i + 1) _ h2 ?_
        intro cp hcp
        rcases List.mem_append.mp hcp with ha | hb
        · exact hc cp ha
        · rw [List.mem_singleton.mp hb]
          exact Nat.le_trans (Nat.le_add_right _ _) h2

/-- Lemma: `finish_run` only rewrites the status/end-time, so any property of
the counters carries over to the final job and to the final checkpoint. -/
theorem finish_run_counts (now : Nat) (ps : PipeState) :
    (finish_run now ps).job.processed_urls = ps.job.processed_urls ∧
    (finish_run now ps).job.successful_urls = ps.job.successful_urls ∧
    (finish_run now ps).job.failed_urls = ps.job.failed_urls ∧
    (finish_run now ps).job.total_urls = ps.job.total_urls ∧
    (finish_run now ps).checkpoints = ps.checkpoints ++ [(finish_run now ps).job] := by
  by_cases hs : ps.job.status = "running" <;>
    simp [finish_run, hs]

/-- Counter invariant for a full pipeline tail (loop then conclusion). -/
theorem pipeline_countInv (extract : String → ExtractResult)
    (stopAt : Nat → Bool) (wid : Int) (now : Nat) (urls : List String)
    (ps : PipeState) (h : countInv ps.job)
    (hc : ∀ cp ∈ ps.checkpoints, countInv cp) :
    ∀ cp ∈ (finish_run now (run_loop extract stopAt wid now urls 0 ps)).checkpoints,
      countInv cp := by
  have hl := run_loop_countInv extract stopAt wid now urls 0 ps h hc
  have hf := finish_run_counts now (run_loop extract stopAt wid now urls 0 ps)
  intro cp hcp
  rw [hf.2.2.2.2] at hcp
  rcases List.mem_append.mp hcp with ha | hb
  · exact hl.2 cp ha
  · rw [List.mem_singleton.mp hb]
    unfold countInv
    rw [hf.1, hf.2.1, hf.2.2.1]
    exact hl.1

/-- Total-vs-processed invariant for a full pipeline tail. -/
theorem pipeline_total (extract : String → ExtractResult)
    (stopAt : Nat → Bool) (wid : Int) (now : Nat) (urls : List String)
    (ps : PipeState)
    (h : ps.job.processed_urls + urls.length ≤ ps.job.total_urls)
    (hc : ∀ cp ∈ ps.checkpoints, cp.processed_urls ≤ cp.total_urls) :
    ∀ cp ∈ (finish_run now (run_loop extract stopAt wid now urls 0 ps)).checkpoints,
      cp.processed_urls ≤ cp.total_urls := by
  have hl := run_loop_total extract stopAt wid now urls 0 ps h hc
  have hf := finish_run_counts now (run_loop extract stopAt wid now urls 0 ps)
  intro cp hcp
  rw [hf.2.2.2.2] at hcp
  rcases List.mem_append.mp hcp with ha | hb
  · exact hl.2 cp ha
  · rw [List.mem_singleton.mp hb]
    rw [hf.1, hf.2.2.2.1]
    exact hl.1

/-! ## Claims C1 and C9 -/

/-- Claim C1: At every per-URL checkpoint of the pipeline — in both the
initial run and the resume run, for any extraction outcomes and any
cooperative-stop schedule — `processed_urls = successful_urls +
failed_urls`; moreover each completed URL attempt increments
`processed_urls` by one and exactly one of `successful_urls`
(success branch) or `failed_urls` (failure branch) by one. -/
theorem c1_processed_is_successful_plus_failed
    (extract : String → ExtractResult) (stopAt : Nat → Bool)
    (wid : Int) (now : Nat) (urls : List String) (ps0 : PipeState)
    (hcp : ps0.checkpoints = [])
    (h : countInv ps0.job) :
    (∀ cp ∈ (run_job extract stopAt wid now urls ps0).checkpoints, countInv cp) ∧
    (∀ cp ∈ (resume_run extract stopAt wid now urls ps0).checkpoints, countInv cp) ∧
    (∀ (job : CrawlerJob) (url msg : String),
      (record_failure job url msg).processed_urls = job.processed_urls + 1 ∧
      (record_failure job url msg).failed_urls = job.failed_urls + 1 ∧
      (record_failure job url msg).successful_urls = job.successful_urls) ∧
    (∀ job : CrawlerJob,
      (record_success job).processed_urls = job.processed_urls + 1 ∧
      (record_success job).successful_urls = job.successful_urls + 1 ∧
      (record_success job).failed_urls = job.failed_urls) := by
  refine ⟨?_, ?_, fun job url msg => ⟨rfl, rfl, rfl⟩, fun job => ⟨rfl, rfl, rfl⟩⟩
  · intro cp hcp2
    simp only [run_job] at hcp2
    refine pipeline_countInv extract stopAt wid now urls _ ?_ ?_ cp hcp2
    · exact h
    · intro c hc2
      rw [hcp] at hc2
      simp only [List.nil_append, List.mem_singleton] at hc2
      rw [hc2]
      exact h
  · intro cp hcp2
    simp only [resume_run] at hcp2
    by_cases h0 : 0 < ps0.job.total_urls
    · rw [if_pos h0] at hcp2
      refine pipeline_countInv extract stopAt wid now _ _ ?_ ?_ cp hcp2
      · exact h
      · intro c hc2
        rw [hcp] at hc2
        simp only [List.nil_append, List.mem_singleton] at hc2
        rw [hc2]
        exact h
    · rw [if_neg h0] at hcp2
      simp only [run_job] at hcp2
      refine pipeline_countInv extract stopAt wid now urls _ ?_ ?_ cp hcp2
      · exact h
      · intro c hc2
        rw [hcp] at hc2
        simp only [List.nil_append, List.mem_singleton] at hc2
        rw [hc2]
        exact h

/-- Claim C9: Once discovery has completed — `total_urls` assigned from the
discovered URL list in `_run_job` (whose initial run starts with
`processed_urls = 0`), or recomputed as `processed + remaining` in
`_resume_job` — every subsequent checkpoint satisfies
`total_urls ≥ processed_urls`, for any extraction outcomes and any
cooperative-stop schedule. -/
theorem c9_total_ge_processed
    (extract : String → ExtractResult) (stopAt : Nat → Bool)
    (wid : Int) (now : Nat) (urls : List String) (ps0 : PipeState)
    (hcp : ps0.checkpoints = []) :
    (ps0.job.processed_urls = 0 →
      ∀ cp ∈ (run_job extract stopAt wid now urls ps0).checkpoints,
        cp.processed_urls ≤ cp.total_urls) ∧
    (0 < ps0.job.total_urls →
      ∀ cp ∈ (resume_run extract stopAt wid now urls ps0).checkpoints,
        cp.processed_urls ≤ cp.total_urls) := by
  constructor
  · intro h0 cp hcp2
    simp only [run_job] at hcp2
    refine pipeline_total extract stopAt wid now urls _ ?_ ?_ cp hcp2
    · show ps0.job.processed_urls + urls.length ≤ urls.length
      omega
    · intro c hc2
      rw [hcp] at hc2
      simp only [List.nil_append, List.mem_singleton] at hc2
      rw [hc2]
      show ps0.job.processed_urls ≤ urls.length
      omega
  · intro h0 cp hcp2
    simp only [resume_run] at hcp2
    rw [if_pos h0] at hcp2
    refine pipeline_total extract stopAt wid now _ _ ?_ ?_ cp hcp2
    · exact Nat.le_refl _
    · intro c hc2
      rw [hcp] at hc2
      simp only [List.nil_append, List.mem_singleton] at hc2
      rw [hc2]
      exact Nat.le_add_right _ _

/-! Concrete pipeline environment used by witnesses. -/

/-- A concrete extraction environment: one URL extracts, others 404. -/
def wExtract : String → ExtractResult :=
  fun u => if u = "https://w.test/ok" then .success "T" "Body" else .failure "HTTP 404"

/-- A job just started by `start_job` (status running, zeroed counters). -/
def wJobRunning : CrawlerJob :=
  { CrawlerJob.new "jw" 1 "https://w.test" none with
    status := "running", start_time := some 1 }

/-- Fresh pipeline state for `wJobRunning`. -/
def wPipe : PipeState :=
  { job := wJobRunning, store := [], repo := { pages := [], next_id := 1 },
    checkpoints := [], attempted := [] }

/-- Witness for C1: the final checkpoint of a concrete two-URL run (one
success, one failure) satisfies `processed = successful + failed`. -/
theorem c1_processed_is_successful_plus_failed_witness :
    countInv (run_job wExtract (fun _ => false) 1 5
      ["https://w.test/ok", "https://w.test/bad"] wPipe).job :=
  (c1_processed_is_successful_plus_failed wExtract (fun _ => false) 1 5
      ["https://w.test/ok", "https://w.test/bad"] wPipe rfl rfl).1
    (run_job wExtract (fun _ => false) 1 5
      ["https://w.test/ok", "https://w.test/bad"] wPipe).job
    (by decide)

/-- Witness for C9: the final job of the same concrete run satisfies
`processed ≤ total`. -/
theorem c9_total_ge_processed_witness :
    (run_job wExtract (fun _ => false) 1 5
      ["https://w.test/ok", "https://w.test/bad"] wPipe).job.processed_urls ≤
    (run_job wExtract (fun _ => false) 1 5
      ["https://w.test/ok", "https://w.test/bad"] wPipe).job.total_urls :=
  (c9_total_ge_processed wExtract (fun _ => false) 1 5
      ["https://w.test/ok", "https://w.test/bad"] wPipe rfl).1 rfl
    (run_job wExtract (fun _ => false) 1 5
      ["https://w.test/ok", "https://w.test/bad"] wPipe).job
    (by decide)

/-! ## Claim C2 -/

/-- Claim C2, code bug: `_save_content` persists the document to content
storage and upserts the Page row keyed by URL — create on first sight
(with `website_id`, `last_crawled_at`, `is_indexed = False`), in-place
update (same id, no duplicate) on re-crawl — but the `content` field it
writes is `content.get("content")`, and the extractor's result dict keeps
the cleaned body text under the key `"text"`, so the Page content written
is `None` in both branches, never the cleaned body text. -/
theorem c2_save_content_writes_none_content :
    (save_content 1 [] { pages := [], next_id := 1 }
        { url := "https://x.test/page", title := "Title", text := "Cleaned body text" } 7).fst =
      [{ url := "https://x.test/page", title := "Title", text := "Cleaned body text" }] ∧
    (save_content 1 [] { pages := [], next_id := 1 }
        { url := "https://x.test/page", title := "Title", text := "Cleaned body text" } 7).snd.pages =
      [{ id := 1, url := "https://x.test/page", title := some "Title",
         content := none, website_id := 1, last_crawled_at := some 7,
         is_indexed := false }] ∧
    docGet { url := "https://x.test/page", title := "Title", text := "Cleaned body text" } "content" = none ∧
    docGet { url := "https://x.test/page", title := "Title", text := "Cleaned body text" } "text" =
      some "Cleaned body text" ∧
    (save_content 1
        (save_content 1 [] { pages := [], next_id := 1 }
          { url := "https://x.test/page", title := "Title", text := "Cleaned body text" } 7).fst
        (save_content 1 [] { pages := [], next_id := 1 }
          { url := "https://x.test/page", title := "Title", text := "Cleaned body text" } 7).snd
        { url := "https://x.test/page", title := "Title2", text := "New body" } 8).snd.pages =
      [{ id := 1, url := "https://x.test/page", title := some "Title2",
         content := none, website_id := 1, last_crawled_at := some 8,
         is_indexed := false }] := by
  refine ⟨rfl, rfl, rfl, rfl, rfl⟩

/-! ## Claim C5: support lemmas about the content store -/

theorem self_mem_stored_put (s : List CrawledDoc) (d : CrawledDoc) :
    d.url ∈ stored_urls (store_put s d) := by
  unfold store_put stored_urls
  by_cases hp : List.any s (fun e => e.url = d.url) = true
  · rw [if_pos hp]
    rw [List.any_eq_true] at hp
    obtain ⟨e0, he0, hu⟩ := hp
    simp only [decide_eq_true_eq] at hu
    rw [List.map_map]
    refine List.mem_map.mpr ⟨e0, he0, ?_⟩
    simp [Function.comp, hu]
  · rw [if_neg hp]
    simp

theorem mem_stored_put_mono (s : List CrawledDoc) (d : CrawledDoc) (u : String)
    (h : u ∈ stored_urls s) : u ∈ stored_urls (store_put s d) := by
  unfold stored_urls at h
  obtain ⟨e, he, heu⟩ := List.mem_map.mp h
  unfold store_put stored_urls
  by_cases hp : List.any s (fun e => e.url = d.url) = true
  · rw [if_pos hp, List.map_map]
    refine List.mem_map.mpr ⟨e, he, ?_⟩
    show (if e.url = d.url then d else e).url = u
    by_cases hd : e.url = d.url
    · rw [if_pos hd, ← hd]
      exact heu
    · rw [if_neg hd]
      exact heu
  · rw [if_neg hp]
    rw [List.map_append]
    exact List.mem_append_left _ (List.mem_map.mpr ⟨e, he, heu⟩)

theorem run_loop_store_mono (extract : String → ExtractResult)
    (stopAt : Nat → Bool) (wid : Int) (now : Nat) :
    ∀ (urls : List String) (i : Nat) (ps : PipeState) (u : String),
    u ∈ stored_urls ps.store →
    u ∈ stored_urls (run_loop extract stopAt wid now urls i ps).store := by
  intro urls
  induction urls with
  | nil => intro i ps u h; exact h
  | cons url rest ih =>
    intro i ps u h
    rw [run_loop]
    by_cases hr : (observe_stop (stopAt i) now ps.job).status ≠ "running"
    · rw [if_pos hr]; exact h
    · rw [if_neg hr]
      cases hex : extract url with
      | failure msg => exact ih (i + 1) _ u h
      | success t c => exact ih (i + 1) _ u (mem_stored_put_mono _ _ u h)

theorem run_loop_success_stored (extract : String → ExtractResult)
    (wid : Int) (now : Nat) :
    ∀ (urls : List String) (i : Nat) (ps : PipeState),
    ps.job.status = "running" →
    (∀ u ∈ urls, ∃ t c, extract u = .success t c) →
    ∀ u ∈ urls,
      u ∈ stored_urls (run_loop extract (fun _ => false) wid now urls i ps).store := by
  intro urls
  induction urls with
  | nil => intro i ps _ _ u hu; exact absurd hu (List.not_mem_nil u)
  | cons url rest ih =>
    intro i ps hst hall u hu
    simp only [run_loop]
    have hr : ¬ ((observe_stop false now ps.job).status ≠ "running") := by
      simp [observe_stop, hst]
    rw [if_neg hr]
    obtain ⟨t, c, hex⟩ := hall url (List.mem_cons_self url rest)
    rw [hex]
    rcases List.mem_cons.mp hu with rfl | hurest
    · exact run_loop_store_mono extract (fun _ => false) wid now rest (i + 1) _ u
        (self_mem_stored_put ps.store { url := u, title := t, text := c })
    · refine ih (i + 1) _ ?_ (fun v hv => hall v (List.mem_cons_of_mem _ hv)) u hurest
      show (record_success (observe_stop false now ps.job)).status = "running"
      simp [record_success, observe_stop, hst]

theorem run_loop_attempted_all (extract : String → ExtractResult)
    (wid : Int) (now : Nat) :
    ∀ (urls : List String) (i : Nat) (ps : PipeState),
    ps.job.status = "running" →
    (run_loop extract (fun _ => false) wid now urls i ps).attempted =
      ps.attempted ++ urls := by
  intro urls
  induction urls with
  | nil => intro i ps _; simp [run_loop]
  | cons url rest ih =>
    intro i ps hst
    simp only [run_loop]
    have hr : ¬ ((observe_stop false now ps.job).status ≠ "running") := by
      simp [observe_stop, hst]
    rw [if_neg hr]
    cases hex : extract url with
    | failure msg =>
      rw [ih (i + 1) _ (by simp [record_failure, observe_stop, hst])]
      simp
    | success t c =>
      rw [ih (i + 1) _ (by simp [record_success, observe_stop, hst])]
      simp

theorem run_loop_checkpoints_append (extract : String → ExtractResult)
    (stopAt : Nat → Bool) (wid : Int) (now : Nat) :
    ∀ (urls : List String) (i : Nat) (ps : PipeState),
    ∃ l, (run_loop extract stopAt wid now urls i ps).checkpoints =
      ps.checkpoints ++ l := by
  intro urls
  induction urls with
  | nil => intro i ps; exact ⟨[], by simp [run_loop]⟩
  | cons url rest ih =>
    intro i ps
    rw [run_loop]
    by_cases hr : (observe_stop (stopAt i) now ps.job).status ≠ "running"
    · rw [if_pos hr]
      exact ⟨[], by simp⟩
    · rw [if_neg hr]
      cases hex : extract url with
      | failure msg =>
        obtain ⟨l, hl⟩ := ih (i + 1)
          { ps with job := record_failure (observe_stop (stopAt i) now ps.job) url msg,
                    checkpoints := ps.checkpoints ++
                      [record_failure (observe_stop (stopAt i) now ps.job) url msg],
                    attempted := ps.attempted ++ [url] }
        exact ⟨[record_failure (observe_stop (stopAt i) now ps.job) url msg] ++ l, by
          rw [hl]; simp⟩
      | success t c =>
        obtain ⟨l, hl⟩ := ih (i + 1)
          { job := record_success (observe_stop (stopAt i) now ps.job),
            store := (save_content wid ps.store ps.repo
              { url := url, title := t, text := c } now).fst,
            repo := (save_content wid ps.store ps.repo
              { url := url, title := t, text := c } now).snd,
            checkpoints := ps.checkpoints ++
              [record_success (observe_stop (stopAt i) now ps.job)],
            attempted := ps.attempted ++ [url] }
        exact ⟨[record_success (observe_stop (stopAt i) now ps.job)] ++ l, by
          rw [hl]; simp⟩

/-! ## Claim C5 -/

/-- Claim C5: A successful resume of a job with URL data (`total_urls > 0`,
status flipped to running by the `resume_job` admission, which itself
succeeds exactly for `failed`/`stopped` jobs when a slot is free):
re-runs discovery and feeds the loop exactly the discovered URLs whose
content record is absent (ghost `attempted` list); the discovery
checkpoint sets `total_urls := processed_urls + remaining` without
resetting any counter; and if every remaining URL extracts successfully,
re-running the resume discovery filter afterwards (same discovery list,
no new content) finds zero new URLs. -/
theorem c5_resume_only_missing_urls
    (extract : String → ExtractResult) (wid : Int) (now : Nat)
    (discovered : List String) (ps0 : PipeState)
    (h0 : 0 < ps0.job.total_urls)
    (hst : ps0.job.status = "running")
    (hcp : ps0.checkpoints = [])
    (hat : ps0.attempted = []) :
    (∀ (st : ManagerState) (jobId : String) (job : CrawlerJob),
      dget st.jobs jobId = some job →
      (job.status = "failed" ∨ job.status = "stopped") →
      st.active_jobs.length < st.max_concurrent_jobs →
      (resume_job st jobId).fst = true) ∧
    (resume_run extract (fun _ => false) wid now discovered ps0).attempted =
      discovered.filter (fun u => ! memb u (stored_urls ps0.store)) ∧
    (resume_run extract (fun _ => false) wid now discovered ps0).checkpoints.head? =
      some { ps0.job with
        total_urls := ps0.job.processed_urls +
          (discovered.filter (fun u => ! memb u (stored_urls ps0.store))).length } ∧
    ((∀ u ∈ discovered.filter (fun u => ! memb u (stored_urls ps0.store)),
        ∃ t c, extract u = .success t c) →
      discovered.filter (fun u => ! memb u
        (stored_urls (resume_run extract (fun _ => false) wid now discovered ps0).store)) = []) := by
  refine ⟨?_, ?_, ?_, ?_⟩
  · intro st jobId job hj hs hcap
    have hs2 : ¬ (job.status ≠ "failed" ∧ job.status ≠ "stopped") := by
      rcases hs with h | h <;> simp [h]
    simp [resume_job, hj, hs2, Nat.not_le.mpr hcap]
  · simp only [resume_run, if_pos h0, finish_run]
    rw [run_loop_attempted_all extract wid now _ 0 _ (by simpa using hst)]
    rw [hat]
    simp
  · simp only [resume_run, if_pos h0]
    have hf := finish_run_counts now (run_loop extract (fun _ => false) wid now
      (discovered.filter (fun u => ! memb u (stored_urls ps0.store))) 0
      { ps0 with
        job := { ps0.job with
          total_urls := ps0.job.processed_urls +
            (discovered.filter (fun u => ! memb u (stored_urls ps0.store))).length },
        checkpoints := ps0.checkpoints ++
          [{ ps0.job with
            total_urls := ps0.job.processed_urls +
              (discovered.filter (fun u => ! memb u (stored_urls ps0.store))).length }] })
    rw [hf.2.2.2.2]
    obtain ⟨l, hl⟩ := run_loop_checkpoints_append extract (fun _ => false) wid now
      (discovered.filter (fun u => ! memb u (stored_urls ps0.store))) 0
      { ps0 with
        job := { ps0.job with
          total_urls := ps0.job.processed_urls +
            (discovered.filter (fun u => ! memb u (stored_urls ps0.store))).length },
        checkpoints := ps0.checkpoints ++
          [{ ps0.job with
            total_urls := ps0.job.processed_urls +
              (discovered.filter (fun u => ! memb u (stored_urls ps0.store))).length }] }
    rw [hl]
    rw [hcp]
    simp
  · intro hsucc
    rw [List.filter_eq_nil_iff]
    intro u hu
    have hmt : memb u
        (stored_urls (resume_run extract (fun _ => false) wid now discovered ps0).store) = true := by
      rw [memb_iff]
      simp only [resume_run, if_pos h0, finish_run]
      by_cases hmem : memb u (stored_urls ps0.store) = true
      · refine run_loop_store_mono extract (fun _ => false) wid now _ 0 _ u ?_
        exact (memb_iff _ _).mp hmem
      · have hmem2 : memb u (stored_urls ps0.store) = false := by
          cases hq : memb u (stored_urls ps0.store) with
          | false => rfl
          | true => exact absurd hq hmem
        have hufil : u ∈ discovered.filter (fun v => ! memb v (stored_urls ps0.store)) := by
          rw [List.mem_filter]
          exact ⟨hu, by rw [hmem2]; rfl⟩
        exact run_loop_success_stored extract wid now _ 0 _ (by simpa using hst) hsucc u hufil
    simp [hmt]

/-- Resume-witness environment: every URL extracts successfully. -/
def rExtract : String → ExtractResult := fun _ => .success "T" "B"

/-- A stopped-then-resumed job: 2 URLs known, 1 already processed. -/
def rJob : CrawlerJob :=
  { id := "jr", website_id := 1, website_url := "https://r.test",
    sitemap_url := none, status := "running", start_time := some 0,
    end_time := none, total_urls := 2, processed_urls := 1,
    successful_urls := 1, failed_urls := 0, errors := [] }

/-- Pipeline state at resume: one content record already persisted. -/
def rPipe : PipeState :=
  { job := rJob,
    store := [{ url := "https://r.test/a", title := "T", text := "B" }],
    repo := { pages := [], next_id := 1 }, checkpoints := [], attempted := [] }

/-- Witness for C5: resuming with discovery
`[https://r.test/a, https://r.test/b]` and a content record for `/a`
crawls exactly `/b`. -/
theorem c5_resume_only_missing_urls_witness :
    (resume_run rExtract (fun _ => false) 1 9
      ["https://r.test/a", "https://r.test/b"] rPipe).attempted =
      ["https://r.test/b"] := by
  have h := (c5_resume_only_missing_urls rExtract 1 9
    ["https://r.test/a", "https://r.test/b"] rPipe (by decide) rfl rfl rfl).2.1
  rw [h]
  decide

/-! ## Sitemap crawler (`src/crawler/crawler/sitemap_crawler.py`)

`parse_sitemap` operates on the tree produced by
`BeautifulSoup(content, "xml")`; we embed parsed XML documents directly
as trees.  `find_all` searches the whole document (soup level),
`tag.find` searches a tag's descendants, `.string` is the single nested
string of a tag, and `if tag and tag.string:` additionally rejects the
empty string (Python truthiness). -/

inductive Xml where
  | elem (tag : String) (children : List Xml)
  | text (s : String)

mutual

def xmlDecEq : (a b : Xml) → Decidable (a = b)
  | .text s, .text t =>
    match decEq s t with
    | isTrue h => isTrue (by rw [h])
    | isFalse h => isFalse (by intro hh; cases hh; exact h rfl)
  | .text _, .elem _ _ => isFalse (by intro h; cases h)
  | .elem _ _, .text _ => isFalse (by intro h; cases h)
  | .elem t1 cs1, .elem t2 cs2 =>
    match decEq t1 t2, xmlDecEqList cs1 cs2 with
    | isTrue h1, isTrue h2 => isTrue (by rw [h1, h2])
    | isFalse h1, _ => isFalse (by intro hh; cases hh; exact h1 rfl)
    | _, isFalse h2 => isFalse (by intro hh; cases hh; exact h2 rfl)

def xmlDecEqList : (a b : List Xml) → Decidable (a = b)
  | [], [] => isTrue rfl
  | [], _ :: _ => isFalse (by intro h; cases h)
  | _ :: _, [] => isFalse (by intro h; cases h)
  | x :: xs, y :: ys =>
    match xmlDecEq x y, xmlDecEqList xs ys with
    | isTrue h1, isTrue h2 => isTrue (by rw [h1, h2])
    | isFalse h1, _ => isFalse (by intro hh; cases hh; exact h1 rfl)
    | _, isFalse h2 => isFalse (by intro hh; cases hh; exact h2 rfl)

end

instance : DecidableEq Xml := xmlDecEq

mutual

/-- Models `soup.find_all(tag)`: all elements with the tag, document order. -/
def findAll (tag : String) : Xml → List Xml
  | .text _ => []
  | .elem t cs =>
    (if t = tag then [Xml.elem t cs] else []) ++ findAllList tag cs

def findAllList (tag : String) : List Xml → List Xml
  | [] => []
  | x :: xs => findAll tag x ++ findAllList tag xs

end

mutual

def findFirstNode (tag : String) : Xml → Option Xml
  | .text _ => none
  | .elem t cs => if t = tag then some (.elem t cs) else findFirstList tag cs

def findFirstList (tag : String) : List Xml → Option Xml
  | [] => none
  | x :: xs =>
    match findFirstNode tag x with
    | some r => some r
    | none => findFirstList tag xs

end

/-- Models `tag.find(name)`: first matching descendant, pre-order. -/
def findIn (tag : String) : Xml → Option Xml
  | .text _ => none
  | .elem _ cs => findFirstList tag cs

/-- Models `tag.string`: the single nested string, if any. -/
def xmlString : Xml → Option String
  | .text s => some s
  | .elem _ [c] => xmlString c
  | .elem _ _ => none

/-- Models `if tag and tag.string:` — tag found and its string truthy. -/
def tagString (x : Option Xml) : Option String :=
  match x with
  | none => none
  | some t =>
    match xmlString t with
    | none => none
    | some s => if s = "" then none else some s

/-- One discovered URL entry
(`{url, lastmod, changefreq, priority}`). -/
structure UrlEntry where
  url : String
  lastmod : Option String
  changefreq : Option String
  priority : Option PyFloat
deriving DecidableEq

/-- The per-`<url>` entry builder of `parse_sitemap` (lines 157-183):
requires a truthy `<loc>` string; `lastmod`/`changefreq` are optional
strings, `priority` is parsed as a float with `ValueError` swallowed. -/
def urlEntryOf (u : Xml) : Option UrlEntry :=
  match tagString (findIn "loc" u) with
  | none => none
  | some lo =>
    some (UrlEntry.mk (sTrim lo)
      ((tagString (findIn "lastmod" u)).map sTrim)
      ((tagString (findIn "changefreq" u)).map sTrim)
      ((tagString (findIn "priority" u)).bind (fun s => parseFloat (sTrim s))))

/-- Models `EnhancedSitemapCrawler.parse_sitemap` (lines 113-189).  `fetch`
models `fetch_url` composed with the XML parse of the fetched body
(`none` for a failed fetch or empty body).  The source recursion has no
depth limit (a documented limitation); `fuel` bounds it in the embedding
and any fuel at least the sitemap-tree depth is enough. -/
def parse_sitemap (fetch : String → Option Xml) : Nat → Xml → List UrlEntry
  | 0, _ => []
  | fuel + 1, doc =>
    let sitemaps := findAll "sitemap" doc
    match sitemaps with
    | _ :: _ =>
      sitemaps.foldl
        (fun acc sm =>
          match tagString (findIn "loc" sm) with
          | none => acc
          | some lo =>
            match fetch (sTrim lo) with
            | none => acc
            | some sub => acc ++ parse_sitemap fetch fuel sub) []
    | [] =>
      match findAll "url" doc with
      | [] =>
        (findAll "loc" doc).filterMap (fun l =>
          (tagString (some l)).map (fun s => UrlEntry.mk (sTrim s) none none none))
      | u0 :: urest =>
        (u0 :: urest).filterMap urlEntryOf

/-- Models `EnhancedSitemapCrawler.crawl` (lines 268-282): when a sitemap URL
was discovered and its content fetches, parse it; otherwise fall back to
link crawling (`fallback` is the `crawl_without_sitemap` result, modelled
separately). -/
def crawl (fetch : String → Option Xml) (discovered_sitemap : Option String)
    (fuel : Nat) (fallback : List UrlEntry) : List UrlEntry :=
  match discovered_sitemap with
  | some su =>
    match fetch su with
    | some content => parse_sitemap fetch fuel content
    | none => fallback
  | none => fallback

/-- A leaf sitemap `<urlset>` whose `<url>` entries carry only `<loc>`. -/
def mkUrlset (urls : List String) : Xml :=
  .elem "urlset" (urls.map (fun u => .elem "url" [.elem "loc" [.text u]]))

/-- A sitemap index listing sub-sitemap locations. -/
def mkIndex (subs : List String) : Xml :=
  .elem "sitemapindex" (subs.map (fun s => .elem "sitemap" [.elem "loc" [.text s]]))

theorem findAllList_sitemap_urlelems (urls : List String) :
    findAllList "sitemap"
      (urls.map (fun u => Xml.elem "url" [Xml.elem "loc" [Xml.text u]])) = [] := by
  induction urls with
  | nil => rfl
  | cons u rest ih =>
    show findAll "sitemap" (Xml.elem "url" [Xml.elem "loc" [Xml.text u]]) ++
      findAllList "sitemap" (rest.map _) = []
    rw [ih]
    rfl

theorem findAllList_url_urlelems (urls : List String) :
    findAllList "url"
      (urls.map (fun u => Xml.elem "url" [Xml.elem "loc" [Xml.text u]])) =
      urls.map (fun u => Xml.elem "url" [Xml.elem "loc" [Xml.text u]]) := by
  induction urls with
  | nil => rfl
  | cons u rest ih =>
    show findAll "url" (Xml.elem "url" [Xml.elem "loc" [Xml.text u]]) ++
      findAllList "url" (rest.map _) = _
    rw [ih]
    rfl

theorem urlEntryOf_bare (v : String) (h1 : sTrim v = v) (h2 : v ≠ "") :
    urlEntryOf (Xml.elem "url" [Xml.elem "loc" [Xml.text v]]) =
      some (UrlEntry.mk v none none none) := by
  have hts : tagString (findIn "loc" (Xml.elem "url" [Xml.elem "loc" [Xml.text v]])) =
      some v := by
    show tagString (some (Xml.elem "loc" [Xml.text v])) = some v
    simp only [tagString, xmlString]
    rw [if_neg h2]
  simp only [urlEntryOf, hts]
  show some (UrlEntry.mk (sTrim v) none none none) = some (UrlEntry.mk v none none none)
  rw [h1]

theorem filterMap_urlEntryOf :
    ∀ (urls : List String), (∀ u ∈ urls, sTrim u = u ∧ u ≠ "") →
    List.filterMap urlEntryOf
      (urls.map (fun u => Xml.elem "url" [Xml.elem "loc" [Xml.text u]])) =
      urls.map (fun u => UrlEntry.mk u none none none) := by
  intro urls
  induction urls with
  | nil => intro _; rfl
  | cons u rest ih =>
    intro h
    simp only [List.map_cons, List.filterMap_cons]
    rw [urlEntryOf_bare u (h u (List.mem_cons_self u rest)).1
      (h u (List.mem_cons_self u rest)).2]
    rw [ih (fun v hv => h v (List.mem_cons_of_mem _ hv))]

/-- Parsing a plain `<urlset>` leaf sitemap yields one bare entry per
(clean, non-empty) URL. -/
theorem parse_mkUrlset (fetch : String → Option Xml) (fuel : Nat)
    (urls : List String) (h : ∀ u ∈ urls, sTrim u = u ∧ u ≠ "") :
    parse_sitemap fetch (fuel + 1) (mkUrlset urls) =
      urls.map (fun u => UrlEntry.mk u none none none) := by
  have hs : findAll "sitemap" (mkUrlset urls) = [] := by
    simp only [mkUrlset, findAll]
    rw [findAllList_sitemap_urlelems]
    rfl
  have hu : findAll "url" (mkUrlset urls) =
      urls.map (fun u => Xml.elem "url" [Xml.elem "loc" [Xml.text u]]) := by
    simp only [mkUrlset, findAll]
    rw [findAllList_url_urlelems]
    rfl
  simp only [parse_sitemap, hs, hu]
  cases urls with
  | nil => rfl
  | cons u rest =>
    exact filterMap_urlEntryOf (u :: rest) h

/-! ## Claim C6 -/

/-- Fetch environment for the sitemap-index scenario: the root sitemap is
an index listing two leaf sitemaps, which hold the URL lists `A` and `B`. -/
def c6Fetch (A B : List String) : String → Option Xml
  | "https://x.test/root.xml" =>
    some (mkIndex ["https://x.test/a.xml", "https://x.test/b.xml"])
  | "https://x.test/a.xml" => some (mkUrlset A)
  | "https://x.test/b.xml" => some (mkUrlset B)
  | _ => none

/-- Claim C6: For a root sitemap that is a sitemap index with two
`<sitemap><loc>` entries, each pointing to a fetchable leaf sitemap with
N URL entries, `crawl()` recursively fetches and parses both sub-sitemaps
and returns the flattened union of all discovered URL entries — 2×N
entries. -/
theorem c6_sitemap_index_flattens (A B : List String) (N : Nat)
    (hA : ∀ u ∈ A, sTrim u = u ∧ u ≠ "") (hB : ∀ u ∈ B, sTrim u = u ∧ u ≠ "")
    (hAN : A.length = N) (hBN : B.length = N) (fuel : Nat) :
    crawl (c6Fetch A B) (some "https://x.test/root.xml") (fuel + 2) [] =
      (A ++ B).map (fun u => UrlEntry.mk u none none none) ∧
    (crawl (c6Fetch A B) (some "https://x.test/root.xml") (fuel + 2) []).length =
      2 * N := by
  have hroot : crawl (c6Fetch A B) (some "https://x.test/root.xml") (fuel + 2) [] =
      parse_sitemap (c6Fetch A B) (fuel + 2)
        (mkIndex ["https://x.test/a.xml", "https://x.test/b.xml"]) := rfl
  have hindex : parse_sitemap (c6Fetch A B) (fuel + 2)
        (mkIndex ["https://x.test/a.xml", "https://x.test/b.xml"]) =
      parse_sitemap (c6Fetch A B) (fuel + 1) (mkUrlset A) ++
        parse_sitemap (c6Fetch A B) (fuel + 1) (mkUrlset B) := rfl
  constructor
  · rw [hroot, hindex, parse_mkUrlset _ fuel A hA, parse_mkUrlset _ fuel B hB,
      ← List.map_append]
  · rw [hroot, hindex, parse_mkUrlset _ fuel A hA, parse_mkUrlset _ fuel B hB]
    rw [List.length_append, List.length_map, List.length_map, hAN, hBN]
    omega

/-- Witness for C6: two leaf sitemaps with two URLs each yield four
entries. -/
theorem c6_sitemap_index_flattens_witness :
    (crawl (c6Fetch ["https://x.test/p1", "https://x.test/p2"]
        ["https://x.test/q1", "https://x.test/q2"])
      (some "https://x.test/root.xml") 2 []).length = 2 * 2 :=
  (c6_sitemap_index_flattens ["https://x.test/p1", "https://x.test/p2"]
    ["https://x.test/q1", "https://x.test/q2"] 2
    (by decide) (by decide) rfl rfl 0).2

/-! ## Link-crawl fallback (`crawl_without_sitemap`, lines 223-266)

`to_crawl` is a Python `set`; `set.pop()` removes and returns an
*arbitrary* element.  The frontier is embedded as its insertion-ordered
element list together with an adversarial selector `choose`: popping
takes the element at index `choose frontier % frontier.length`, so every
possible pop behaviour of the CPython set corresponds to some `choose`.
`allowed u` is the robots verdict for `u`, `fetchPage u` the fetched HTML
(`none` on failure), `links u` the same-domain URL list that
`discover_urls_from_html` extracts from `u`'s page.  `fuel` bounds the
number of while-iterations; the returned `fuelLeft` is positive whenever
the loop exited through its own condition. -/

structure LinkCrawlOut where
  results : List UrlEntry
  to_crawl : List String
  crawled : List String
  fuelLeft : Nat
deriving DecidableEq

def crawl_without_sitemap (choose : List String → Nat)
    (allowed : String → Bool) (fetchPage : String → Option String)
    (links : String → List String) (maxPages : Nat) :
    Nat → List String → List String → List UrlEntry → LinkCrawlOut
  | 0, to_crawl, crawled, results => ⟨results, to_crawl, crawled, 0⟩
  | fuel + 1, to_crawl, crawled, results =>
    if to_crawl = [] ∨ ¬ crawled.length < maxPages then
      ⟨results, to_crawl, crawled, fuel + 1⟩
    else
      let idx := choose to_crawl % to_crawl.length
      let current := to_crawl.getD idx ""
      let tc2 := to_crawl.eraseIdx idx
      if memb current crawled then
        crawl_without_sitemap choose allowed fetchPage links maxPages fuel
          tc2 crawled results
      else if ¬ allowed current then
        crawl_without_sitemap choose allowed fetchPage links maxPages fuel
          tc2 crawled results
      else
        match fetchPage current with
        | none =>
          crawl_without_sitemap choose allowed fetchPage links maxPages fuel
            tc2 crawled results
        | some _ =>
          let crawled2 := crawled ++ [current]
          let results2 := results ++ [UrlEntry.mk current none none none]
          let tc3 := (links current).foldl
            (fun acc u =>
              if memb u crawled2 then acc
              else if memb u acc then acc else acc ++ [u]) tc2
          crawl_without_sitemap choose allowed fetchPage links maxPages fuel
            tc3 crawled2 results2

/-- Pop the first-inserted element: FIFO order (breadth-first). -/
def chooseFirst : List String → Nat := fun _ => 0

/-- Pop the most recently inserted element. -/
def chooseLast : List String → Nat := fun l => l.length - 1

theorem crawl_ws_invariants (choose : List String → Nat)
    (allowed : String → Bool) (fetchPage : String → Option String)
    (links : String → List String) (maxPages : Nat) :
    ∀ (fuel : Nat) (tc crawled : List String) (results : List UrlEntry),
    results.map (fun e => e.url) = crawled →
    (∀ e ∈ results, allowed e.url = true ∧ fetchPage e.url ≠ none) →
    crawled.Nodup →
    crawled.length ≤ maxPages →
    ((crawl_without_sitemap choose allowed fetchPage links maxPages fuel
        tc crawled results).results.map (fun e => e.url) =
      (crawl_without_sitemap choose allowed fetchPage links maxPages fuel
        tc crawled results).crawled ∧
    (∀ e ∈ (crawl_without_sitemap choose allowed fetchPage links maxPages fuel
        tc crawled results).results,
      allowed e.url = true ∧ fetchPage e.url ≠ none) ∧
    (crawl_without_sitemap choose allowed fetchPage links maxPages fuel
        tc crawled results).crawled.Nodup ∧
    (crawl_without_sitemap choose allowed fetchPage links maxPages fuel
        tc crawled results).crawled.length ≤ maxPages ∧
    (0 < (crawl_without_sitemap choose allowed fetchPage links maxPages fuel
        tc crawled results).fuelLeft →
      (crawl_without_sitemap choose allowed fetchPage links maxPages fuel
        tc crawled results).to_crawl = [] ∨
      maxPages ≤ (crawl_without_sitemap choose allowed fetchPage links maxPages fuel
        tc crawled results).crawled.length)) := by
  intro fuel
  induction fuel with
  | zero =>
    intro tc crawled results h1 h2 h3 h4
    simp only [crawl_without_sitemap]
    exact ⟨h1, h2, h3, h4, fun h => absurd h (Nat.lt_irrefl 0)⟩
  | succ fuel ih =>
    intro tc crawled results h1 h2 h3 h4
    simp only [crawl_without_sitemap]
    by_cases hexit : (tc = [] ∨ ¬ crawled.length < maxPages)
    · rw [if_pos hexit]
      refine ⟨h1, h2, h3, h4, fun _ => ?_⟩
      rcases hexit with he | he
      · exact Or.inl he
      · exact Or.inr (Nat.not_lt.mp he)
    · rw [if_neg hexit]
      push_neg at hexit
      obtain ⟨htc, hlt⟩ := hexit
      by_cases hm : memb (tc.getD (choose tc % tc.length) "") crawled = true
      · rw [if_pos hm]
        exact ih _ _ _ h1 h2 h3 h4
      · rw [if_neg hm]
        by_cases hal : allowed (tc.getD (choose tc % tc.length) "") = true
        · rw [if_neg (not_not_intro hal)]
          cases hf : fetchPage (tc.getD (choose tc % tc.length) "") with
          | none => exact ih _ _ _ h1 h2 h3 h4
          | some html =>
            refine ih _ _ _ ?_ ?_ ?_ ?_
            · rw [List.map_append, h1]
              rfl
            · intro e he
              rcases List.mem_append.mp he with ha | hb
              · exact h2 e ha
              · rw [List.mem_singleton.mp hb]
                exact ⟨hal, by rw [hf]; exact fun hh => Option.noConfusion hh⟩
            · rw [List.nodup_append]
              refine ⟨h3, List.nodup_singleton _, ?_⟩
              intro x hx hx2
              rw [List.mem_singleton.mp hx2] at hx
              exact hm ((memb_iff _ _).mpr hx)
            · rw [List.length_append, List.length_singleton]
              omega
        · rw [if_pos hal]
          exact ih _ _ _ h1 h2 h3 h4

theorem foldl_enqueue_length (crawled2 : List String) :
    ∀ (new tc : List String),
    (new.foldl (fun acc u =>
      if memb u crawled2 then acc
      else if memb u acc then acc else acc ++ [u]) tc).length ≤
      tc.length + new.length := by
  intro new
  induction new with
  | nil => intro tc; simp
  | cons u rest ih =>
    intro tc
    simp only [List.foldl_cons]
    have hstep :
        (if memb u crawled2 then tc
         else if memb u tc then tc else tc ++ [u]).length ≤ tc.length + 1 := by
      by_cases h1 : memb u crawled2 <;> by_cases h2 : memb u tc <;>
        simp [h1, h2]
    have := ih (if memb u crawled2 then tc
      else if memb u tc then tc else tc ++ [u])
    simp only [List.length_cons]
    omega

theorem crawl_ws_fuel (choose : List String → Nat)
    (allowed : String → Bool) (fetchPage : String → Option String)
    (links : String → List String) (maxPages : Nat) (L : Nat)
    (hL : ∀ u, (links u).length ≤ L) :
    ∀ (fuel : Nat) (tc crawled : List String) (results : List UrlEntry),
    (maxPages - crawled.length) * (L + 1) + tc.length < fuel →
    0 < (crawl_without_sitemap choose allowed fetchPage links maxPages fuel
      tc crawled results).fuelLeft := by
  intro fuel
  induction fuel with
  | zero =>
    intro tc crawled results h
    exact absurd h (Nat.not_lt_zero _)
  | succ fuel ih =>
    intro tc crawled results h
    simp only [crawl_without_sitemap]
    by_cases hexit : (tc = [] ∨ ¬ crawled.length < maxPages)
    · rw [if_pos hexit]
      exact Nat.succ_pos fuel
    · rw [if_neg hexit]
      push_neg at hexit
      obtain ⟨htc, hlt⟩ := hexit
      have hidx : choose tc % tc.length < tc.length :=
        Nat.mod_lt _ (List.length_pos.mpr htc)
      have herase : (tc.eraseIdx (choose tc % tc.length)).length + 1 = tc.length :=
        List.length_eraseIdx_add_one hidx
      by_cases hm : memb (tc.getD (choose tc % tc.length) "") crawled = true
      · rw [if_pos hm]
        exact ih _ _ _ (by omega)
      · rw [if_neg hm]
        by_cases hal : allowed (tc.getD (choose tc % tc.length) "") = true
        · rw [if_neg (not_not_intro hal)]
          cases hf : fetchPage (tc.getD (choose tc % tc.length) "") with
          | none => exact ih _ _ _ (by omega)
          | some html =>
            refine ih _ _ _ ?_
            have hfold := foldl_enqueue_length
              (crawled ++ [tc.getD (choose tc % tc.length) ""])
              (links (tc.getD (choose tc % tc.length) ""))
              (tc.eraseIdx (choose tc % tc.length))
            have hlinks := hL (tc.getD (choose tc % tc.length) "")
            have hmul : (maxPages - crawled.length) * (L + 1) =
                (maxPages - (crawled.length + 1)) * (L + 1) + (L + 1) := by
              have hsub : maxPages - crawled.length =
                  (maxPages - (crawled.length + 1)) + 1 := by omega
              rw [hsub, Nat.succ_mul]
            rw [List.length_append, List.length_singleton]
            omega
        · rw [if_pos hal]
          exact ih _ _ _ (by omega)

/-! ## Claim C8 -/

/-- Claim C8, amended: The link-crawl fallback pops URLs from the set-based
frontier in an unspecified order (`set.pop`), so for *every* pop
strategy: each recorded entry passed the robots check and was
successfully fetched; no URL is recorded twice; at most `max_pages` pages
are crawled; whenever the loop terminates on its own it is because the
frontier is exhausted or `max_pages` pages have been crawled; and fuel
`max_pages * (L + 1) + 1` (with `L` bounding the per-page link count)
always suffices for it to terminate on its own. -/
theorem c8_link_crawl_amended (choose : List String → Nat)
    (allowed : String → Bool) (fetchPage : String → Option String)
    (links : String → List String) (maxPages fuel : Nat) (base : String) :
    (∀ e ∈ (crawl_without_sitemap choose allowed fetchPage links maxPages fuel
        [base] [] []).results,
      allowed e.url = true ∧ fetchPage e.url ≠ none) ∧
    ((crawl_without_sitemap choose allowed fetchPage links maxPages fuel
        [base] [] []).results.map (fun e => e.url)).Nodup ∧
    (crawl_without_sitemap choose allowed fetchPage links maxPages fuel
        [base] [] []).results.length ≤ maxPages ∧
    (0 < (crawl_without_sitemap choose allowed fetchPage links maxPages fuel
        [base] [] []).fuelLeft →
      (crawl_without_sitemap choose allowed fetchPage links maxPages fuel
        [base] [] []).to_crawl = [] ∨
      maxPages ≤ (crawl_without_sitemap choose allowed fetchPage links maxPages fuel
        [base] [] []).crawled.length) ∧
    (∀ L, (∀ u, (links u).length ≤ L) → maxPages * (L + 1) + 1 < fuel →
      0 < (crawl_without_sitemap choose allowed fetchPage links maxPages fuel
        [base] [] []).fuelLeft) := by
  have hinv := crawl_ws_invariants choose allowed fetchPage links maxPages fuel
    [base] [] [] rfl (fun e he => absurd he (List.not_mem_nil e))
    List.nodup_nil (Nat.zero_le _)
  refine ⟨hinv.2.1, ?_, ?_, hinv.2.2.2.2, ?_⟩
  · rw [hinv.1]
    exact hinv.2.2.1
  · have hlen := congrArg List.length hinv.1
    rw [List.length_map] at hlen
    have h4 := hinv.2.2.2.1
    omega
  · intro L hL hfuel
    refine crawl_ws_fuel choose allowed fetchPage links maxPages L hL fuel
      [base] [] [] ?_
    simpa using hfuel

/-- Link graph for the C8 counterexample: the base page links to `a` and
`b` (inserted in that order), and `b`'s page links to `c`. -/
def c8LinksList : List (String × List String) :=
  [("https://d.test/", ["https://d.test/a", "https://d.test/b"]),
   ("https://d.test/b", ["https://d.test/c"])]

/-- Models `discover_urls_from_html` outcome per crawled page. -/
def c8Links (u : String) : List String := (dget c8LinksList u).getD []

/-- All four pages fetch successfully. -/
def c8Fetch (u : String) : Option String :=
  if memb u ["https://d.test/", "https://d.test/a", "https://d.test/b",
      "https://d.test/c"] then some "html" else none

/-- robots.txt allows everything. -/
def c8AllowAll : String → Bool := fun _ => true

/-- Claim C8, counterexample: The first-discovered order of this graph is
base, a, b, c — and the `chooseFirst` pop schedule indeed produces it.
But `chooseLast` (an equally legal behaviour of Python's arbitrary-order
`set.pop`) crawls base, b, c, a: URL `a` is discovered before `c` yet
crawled after it, so the traversal is not breadth-first and URLs are not
crawled in the order they were first discovered. -/
theorem c8_link_crawl_counterexample :
    ((crawl_without_sitemap chooseLast c8AllowAll c8Fetch c8Links 100 20
        ["https://d.test/"] [] []).results.map (fun e => e.url)) =
      ["https://d.test/", "https://d.test/b", "https://d.test/c",
        "https://d.test/a"] ∧
    ((crawl_without_sitemap chooseFirst c8AllowAll c8Fetch c8Links 100 20
        ["https://d.test/"] [] []).results.map (fun e => e.url)) =
      ["https://d.test/", "https://d.test/a", "https://d.test/b",
        "https://d.test/c"] ∧
    (["https://d.test/", "https://d.test/b", "https://d.test/c",
        "https://d.test/a"] ≠
      ["https://d.test/", "https://d.test/a", "https://d.test/b",
        "https://d.test/c"]) := by
  refine ⟨by decide, by decide, by decide⟩

/-- Witness for C8 (amended): with ample fuel the concrete crawl
terminates with an exhausted frontier (only four pages are reachable, cap
100). -/
theorem c8_link_crawl_amended_witness :
    (crawl_without_sitemap chooseFirst c8AllowAll c8Fetch c8Links 100 20
      ["https://d.test/"] [] []).to_crawl = [] ∨
    100 ≤ (crawl_without_sitemap chooseFirst c8AllowAll c8Fetch c8Links 100 20
      ["https://d.test/"] [] []).crawled.length :=
  (c8_link_crawl_amended chooseFirst c8AllowAll c8Fetch c8Links 100 20
    "https://d.test/").2.2.2.1 (by decide)
